import Mathlib

/-!
Shallow embedding of the `bp-std` wallet library sources
(`src/std/src/address.rs`, `src/std/src/xpub.rs`, `src/std/src/derive.rs`).

External collaborators (SHA-256, HASH160, HMAC-SHA512, secp256k1 point
arithmetic and key validation, and the base58 / bech32 alphabet codecs) are
passed in as explicit function parameters; the repository's own logic —
binary layouts, version-byte tables, dispatch, consistency checks — is
translated concretely from the Rust source.  Machine integers are modelled
as `Nat` with explicit `% 2 ^ w` where overflow matters.
-/

namespace BpStd

/-- Rust `&str` values are modelled as their character sequences; all the
strings involved here are ASCII, so Rust's byte-based `len()` coincides
with the character count. -/
abbrev Str := List Char

instance {ε α : Type} [DecidableEq ε] [DecidableEq α] : DecidableEq (Except ε α) :=
  fun a b =>
    match a, b with
    | .ok x, .ok y => if h : x = y then isTrue (by rw [h]) else isFalse (by simp [h])
    | .error x, .error y => if h : x = y then isTrue (by rw [h]) else isFalse (by simp [h])
    | .ok _, .error _ => isFalse (by simp)
    | .error _, .ok _ => isFalse (by simp)

/-- Wellformedness of a byte string: every entry fits in one octet. -/
def bytesWf (l : List Nat) : Prop := ∀ b ∈ l, b < 256

instance (l : List Nat) : Decidable (bytesWf l) := by
  unfold bytesWf; infer_instance

/-- Big-endian serialisation of a `u32` (`u32::to_be_bytes`). -/
def u32ToBe (n : Nat) : List Nat :=
  [n / 2 ^ 24 % 256, n / 2 ^ 16 % 256, n / 2 ^ 8 % 256, n % 256]

/-- Big-endian deserialisation of a `u32` (`u32::from_be_bytes`); the Rust
call sites only ever pass exactly four bytes. -/
def u32FromBe (l : List Nat) : Nat :=
  match l with
  | [a, b, c, d] => a * 2 ^ 24 + b * 2 ^ 16 + c * 2 ^ 8 + d
  | _ => 0

/-! ## Base58Check codec

The `base58` module is repository code that is not part of the provided
sources; it is modelled from the spec (§4.1 Checksummed Binary Codec).
The base-58 alphabet encoding itself and SHA-256 are external primitives
passed as parameters. -/

/-- Errors of the base58 checksummed codec (model of `base58::Error` as the
spec §4.1 describes it: invalid character in alphabet, invalid checksum,
invalid total length). -/
inductive Base58Error
  | invalidCharacter
  | invalidChecksum
  | invalidLength (n : Nat)
deriving DecidableEq

namespace base58

/-- Modelled from the spec: `base58::encode_check` (§4.1) appends a 4-byte
checksum (first 4 bytes of double-SHA256 of the payload) and applies the
base-58 alphabet encoding `b58enc` to the concatenation. -/
def encode_check (sha256 : List Nat → List Nat) (b58enc : List Nat → Str)
    (payload : List Nat) : Str :=
  b58enc (payload ++ (sha256 (sha256 payload)).take 4)

/-- Modelled from the spec: `base58::decode_check` (§4.1) base-58–decodes,
splits off the last 4 bytes, recomputes the double-SHA256 checksum over the
remainder and fails on mismatch; decode input whose base-58 decoding fails
is rejected before checksum verification. -/
def decode_check (sha256 : List Nat → List Nat) (b58dec : Str → Option (List Nat))
    (s : Str) : Except Base58Error (List Nat) :=
  match b58dec s with
  | none => .error .invalidCharacter
  | some data =>
    if data.length < 4 then .error (.invalidLength data.length)
    else
      let payload := data.take (data.length - 4)
      let checksum := data.drop (data.length - 4)
      if (sha256 (sha256 payload)).take 4 = checksum then .ok payload
      else .error .invalidChecksum

end base58

/-! ## Derivation indices and batched derivation (`derive.rs`)

`NormalIndex` and its `checked_inc_assign` live in repository code outside
the provided sources; per the spec (§4.2 Derivation Index) a normal index
is a 31-bit value and increment past `2^31 − 1` is a detectable overflow,
not wraparound.  Indices are modelled as raw `Nat` values. -/

/-- First hardened index value: `2^31`. -/
def HARDENED_BOUNDARY : Nat := 2 ^ 31

/-- Modelled from the spec: `NormalIndex::checked_inc_assign` (§4.2) —
increment staying inside the normal (non-hardened, 31-bit) class, or
signal overflow by `none` when the increment would leave it. -/
def checkedInc (i : Nat) : Option Nat :=
  if i + 1 < HARDENED_BOUNDARY then some (i + 1) else none

/-- Loop body of `Derive::derive_batch` (`derive.rs` lines 40–46): push the
derivation at the current index, then return if incrementing the index
overflows or the running count has reached `max_count`, else continue with
the incremented index. -/
def deriveBatchGo {D : Type} (derive : Nat → Nat → D) (change : Nat) :
    Nat → Nat → Nat → List D :=
  fun index count max_count =>
    let d := derive change index
    match checkedInc index with
    | none => [d]
    | some index' =>
      if count + 1 ≥ max_count then [d]
      else d :: deriveBatchGo derive change index' (count + 1) max_count
termination_by _i c m => m - c
decreasing_by omega

/-- `Derive::derive_batch` (`derive.rs` lines 30–47): the loop starting at
`from` with `count = 0`. -/
def derive_batch {D : Type} (derive : Nat → Nat → D) (change from_ max_count : Nat) :
    List D :=
  deriveBatchGo derive change from_ 0 max_count

/-- The sequence the spec describes: `derive` applied at `n` successive
indices starting at `from`, truncated where the normal-index range ends. -/
def seqDerive {D : Type} (derive : Nat → Nat → D) (change from_ n : Nat) : List D :=
  (List.range' from_ (min n (HARDENED_BOUNDARY - from_))).map (derive change)

/-! ## Extended public keys (`xpub.rs`) -/

/-- Magic for mainnet extended pubkeys (`XPUB_MAINNET_MAGIC`). -/
def XPUB_MAINNET_MAGIC : List Nat := [0x04, 0x88, 0xB2, 0x1E]

/-- Magic for testnet extended pubkeys (`XPUB_TESTNET_MAGIC`). -/
def XPUB_TESTNET_MAGIC : List Nat := [0x04, 0x35, 0x87, 0xCF]

/-- Model of `XpubDecodeError` (`xpub.rs` lines 42–52). -/
inductive XpubDecodeError
  | WrongExtendedKeyLength (n : Nat)
  | UnknownKeyType (magic : List Nat)
  | InvalidPublicKey
deriving DecidableEq

/-- Model of `XpubParseError` (`xpub.rs` lines 55–84).  The payloads of the
`DerivationPath` and `InvalidMasterFp` variants come from external error
types and are elided. -/
inductive XpubParseError
  | Base58 (e : Base58Error)
  | Decode (e : XpubDecodeError)
  | DerivationPath
  | InvalidMasterFp
  | NoOrigin
  | NetworkMismatch
  | DepthMismatch
  | ParentMismatch
deriving DecidableEq

/-- Model of `secp256k1::PublicKey` by its canonical 33-byte compressed
serialisation (`PublicKey::serialize`); syntactic validity is an external
predicate supplied where keys are parsed. -/
structure PublicKey where
  bytes : List Nat
deriving DecidableEq

/-- Model of `PublicKey::from_slice`: succeeds exactly on byte strings the
external secp256k1 validity predicate accepts. -/
def PublicKey.from_slice (pk_valid : List Nat → Bool) (l : List Nat) : Option PublicKey :=
  if pk_valid l then some ⟨l⟩ else none

/-- `XpubMeta` (`xpub.rs` lines 146–151): `depth` is a `u8`, `parent_fp`
a 4-byte `XpubFp`, `child_number` the raw `u32` of a `DerivationIndex`. -/
structure XpubMeta where
  depth : Nat
  parent_fp : List Nat
  child_number : Nat
deriving DecidableEq

/-- `XpubCore` (`xpub.rs` lines 104–110): public key plus 32-byte chain code. -/
structure XpubCore where
  public_key : PublicKey
  chain_code : List Nat
deriving DecidableEq

/-- `Xpub` (`xpub.rs` lines 153–158). -/
structure Xpub where
  testnet : Bool
  meta : XpubMeta
  core : XpubCore
deriving DecidableEq

/-- Field wellformedness of an `Xpub` value as the Rust types guarantee it:
byte-sized fields in range, fixed lengths, and a public key the external
secp256k1 predicate accepts. -/
def Xpub.wf (pk_valid : List Nat → Bool) (x : Xpub) : Prop :=
  x.meta.depth < 256 ∧ x.meta.parent_fp.length = 4 ∧ bytesWf x.meta.parent_fp ∧
    x.meta.child_number < 2 ^ 32 ∧ x.core.chain_code.length = 32 ∧
    bytesWf x.core.chain_code ∧ x.core.public_key.bytes.length = 33 ∧
    bytesWf x.core.public_key.bytes ∧ pk_valid x.core.public_key.bytes = true

instance (pk_valid : List Nat → Bool) (x : Xpub) : Decidable (x.wf pk_valid) := by
  unfold Xpub.wf; infer_instance

/-- `Xpub::decode` (`xpub.rs` lines 161–203): length check first, then the
network magic, then the field slices of the fixed 78-byte layout, with the
compressed public key parsed last. -/
def Xpub.decode (pk_valid : List Nat → Bool) (data : List Nat) :
    Except XpubDecodeError Xpub :=
  if data.length ≠ 78 then .error (.WrongExtendedKeyLength data.length)
  else if data.take 4 = XPUB_MAINNET_MAGIC ∨ data.take 4 = XPUB_TESTNET_MAGIC then
    let testnet := data.take 4 = XPUB_TESTNET_MAGIC
    let depth := (data.drop 4).headD 0
    let parent_fp := (data.drop 5).take 4
    let child_number := u32FromBe ((data.drop 9).take 4)
    let chain_code := (data.drop 13).take 32
    match PublicKey.from_slice pk_valid (data.drop 45) with
    | none => .error .InvalidPublicKey
    | some public_key =>
      .ok { testnet := decide testnet
            meta := { depth, parent_fp, child_number }
            core := { public_key, chain_code } }
  else .error (.UnknownKeyType (data.take 4))

/-- `Xpub::encode` (`xpub.rs` lines 205–217): the 78-byte layout
magic ‖ depth ‖ parent fingerprint ‖ big-endian child number ‖ chain code ‖
compressed public key. -/
def Xpub.encode (x : Xpub) : List Nat :=
  (if x.testnet then XPUB_TESTNET_MAGIC else XPUB_MAINNET_MAGIC) ++
    [x.meta.depth] ++ x.meta.parent_fp ++ u32ToBe x.meta.child_number ++
    x.core.chain_code ++ x.core.public_key.bytes

/-- `Xpub::identifier` (`xpub.rs` lines 220–223): HASH160 of the serialised
compressed public key (hash160 is an external primitive). -/
def Xpub.identifier (hash160 : List Nat → List Nat) (x : Xpub) : List Nat :=
  hash160 x.core.public_key.bytes

/-- `Xpub::fingerprint` (`xpub.rs` lines 225–229): first 4 bytes of the
identifier. -/
def Xpub.fingerprint (hash160 : List Nat → List Nat) (x : Xpub) : List Nat :=
  (x.identifier hash160).take 4

/-- `Xpub::ckd_pub_tweak` (`xpub.rs` lines 250–265): HMAC-SHA512 keyed by
the chain code over serialised pubkey ‖ big-endian child number; first 32
bytes are the scalar tweak, last 32 the child chain code.  `hmac512` takes
the key and then the message. -/
def Xpub.ckd_pub_tweak (hmac512 : List Nat → List Nat → List Nat) (x : Xpub)
    (child_no : Nat) : List Nat × List Nat :=
  let hmac_result := hmac512 x.core.chain_code (x.core.public_key.bytes ++ u32ToBe child_no)
  (hmac_result.take 32, hmac_result.drop 32)

/-- `Xpub::ckd_pub` (`xpub.rs` lines 268–287): public→public child key
derivation.  `tweak_add` is the external `add_exp_tweak` EC operation on
serialised keys.  `depth + 1` in the source is `u8` arithmetic, modelled as
`(depth + 1) % 256`. -/
def Xpub.ckd_pub (hash160 : List Nat → List Nat)
    (hmac512 : List Nat → List Nat → List Nat)
    (tweak_add : List Nat → List Nat → List Nat) (x : Xpub) (child_no : Nat) : Xpub :=
  let t := x.ckd_pub_tweak hmac512 child_no
  let tweaked := tweak_add x.core.public_key.bytes t.1
  { testnet := x.testnet
    meta := { depth := (x.meta.depth + 1) % 256
              parent_fp := x.fingerprint hash160
              child_number := child_no }
    core := { public_key := ⟨tweaked⟩, chain_code := t.2 } }

/-- `Xpub::derive_pub` (`xpub.rs` lines 241–247): left fold of `ckd_pub`
over a path of normal indices. -/
def Xpub.derive_pub (hash160 : List Nat → List Nat)
    (hmac512 : List Nat → List Nat → List Nat)
    (tweak_add : List Nat → List Nat → List Nat) (x : Xpub) (path : List Nat) : Xpub :=
  path.foldl (fun pk cnum => pk.ckd_pub hash160 hmac512 tweak_add cnum) x

/-- `impl Display for Xpub` (`xpub.rs` lines 290–294): Base58Check of the
78-byte encoding. -/
def Xpub.to_string (sha256 : List Nat → List Nat) (b58enc : List Nat → Str)
    (x : Xpub) : Str :=
  base58.encode_check sha256 b58enc x.encode

/-- `impl FromStr for Xpub` (`xpub.rs` lines 296–303): Base58Check decode
followed by `Xpub::decode`, each error lifted into `XpubParseError`. -/
def Xpub.from_str (sha256 : List Nat → List Nat) (b58dec : Str → Option (List Nat))
    (pk_valid : List Nat → Bool) (s : Str) : Except XpubParseError Xpub :=
  match base58.decode_check sha256 b58dec s with
  | .error e => .error (.Base58 e)
  | .ok data =>
    match Xpub.decode pk_valid data with
    | .error e => .error (.Decode e)
    | .ok x => .ok x

/-! ## Xpub origin and descriptor (`xpub.rs` lines 305–362)

`DerivationPath` / `DerivationIndex` / `HardenedIndex` live in repository
code outside the provided sources; per the spec (§3, §4.2) a derivation
index is a raw `u32` whose top bit marks hardening, so a path is modelled
as a list of raw `u32` values, and `HardenedIndex::ZERO` / `::ONE` convert
into the raw values `2^31` and `2^31 + 1`.  The textual parsing of origins
and xpubs is abstracted by parser parameters; the consistency checks of
`XpubDescriptor::from_str` are translated concretely. -/

/-- `XpubOrigin` (`xpub.rs` lines 305–310): master fingerprint plus a
derivation path of raw `u32` indices. -/
structure XpubOrigin where
  master_fp : List Nat
  derivation : List Nat
deriving DecidableEq

/-- `XpubDescriptor` (`xpub.rs` lines 328–333). -/
structure XpubDescriptor where
  origin : XpubOrigin
  xpub : Xpub
deriving DecidableEq

/-- Model of `str::split_once` on the separator `]`: split at the first
occurrence, keeping neither side of the separator. -/
def splitOnceRBracket : Str → Option (Str × Str)
  | [] => none
  | c :: cs =>
    if c = ']' then some ([], cs)
    else (splitOnceRBracket cs).map (fun p => (c :: p.1, p.2))

/-- `impl FromStr for XpubDescriptor` (`xpub.rs` lines 335–362): require a
leading `[`, split the origin from the xpub at `]`, parse both parts, then
run the three consistency checks.  All three checks in the source return
`XpubParseError::DepthMismatch` (lines 349, 354 and 357), including the
network and parent checks. -/
def XpubDescriptor.from_str (parse_origin : Str → Except XpubParseError XpubOrigin)
    (parse_xpub : Str → Except XpubParseError Xpub) (s : Str) :
    Except XpubParseError XpubDescriptor :=
  if s.head? ≠ some '[' then .error .NoOrigin
  else
    match splitOnceRBracket (s.dropWhile (· = '[')) with
    | none => .error .NoOrigin
    | some (origin_s, xpub_s) =>
      match parse_origin origin_s, parse_xpub xpub_s with
      | .error e, _ => .error e
      | _, .error e => .error e
      | .ok origin, .ok xpub =>
        let d : XpubDescriptor := { origin, xpub }
        if d.origin.derivation.length ≠ d.xpub.meta.depth then .error .DepthMismatch
        else if d.origin.derivation ≠ [] then
          let network : Nat :=
            if d.xpub.testnet then HARDENED_BOUNDARY + 1 else HARDENED_BOUNDARY
          if d.origin.derivation.getLast? ≠ some network then .error .DepthMismatch
          else if d.origin.derivation.getLast? ≠ some d.xpub.meta.child_number then
            .error .DepthMismatch
          else .ok d
        else .ok d

/-! ## Addresses (`address.rs`)

The bech32 alphabet codec (`bech32::decode`, `Bech32Writer`, the 5-bit
regrouping `ToBase32` / `FromBase32`) and the secp256k1 x-only-key validity
check behind `TaprootPk::from_byte_array` are external primitives passed as
parameters.  The version-byte table, dispatch and fallback logic are
translated concretely from `Address::fmt` / `Address::from_str`. -/

/-- Model of `bech32::Variant`. -/
inductive Variant
  | bech32
  | bech32m
deriving DecidableEq

/-- Model of `bech32::Error`; its variants come from the external crate and
are elided to a single marker. -/
inductive Bech32Error
  | invalidData
deriving DecidableEq

/-- `PUBKEY_ADDRESS_PREFIX_MAIN` (`address.rs` line 38). -/
def PUBKEY_ADDRESS_PREFIX_MAIN : Nat := 0

/-- `SCRIPT_ADDRESS_PREFIX_MAIN` (`address.rs` line 40). -/
def SCRIPT_ADDRESS_PREFIX_MAIN : Nat := 5

/-- `PUBKEY_ADDRESS_PREFIX_TEST` (`address.rs` line 42). -/
def PUBKEY_ADDRESS_PREFIX_TEST : Nat := 111

/-- `SCRIPT_ADDRESS_PREFIX_TEST` (`address.rs` line 44). -/
def SCRIPT_ADDRESS_PREFIX_TEST : Nat := 196

/-- Model of `AddressParseError` (`address.rs` lines 59–93). -/
inductive AddressParseError
  | Base58 (e : Base58Error)
  | Bech32 (e : Bech32Error)
  | InvalidAddressVersion (b : Nat)
  | InvalidWitnessVersion (b : Nat)
  | FutureTaprootVersion (len : Nat) (s : Str)
  | FutureWitnessVersion (v : Nat)
  | InvalidBech32Variant (v : Variant)
  | UnrecognizableFormat (s : Str)
  | WrongPublicKeyData
  | UnrecognizedAddressType
deriving DecidableEq

/-- Model of `TaprootPk` by its 32-byte x-only serialisation; validity is
an external secp256k1 predicate supplied where keys are parsed. -/
structure TaprootPk where
  bytes : List Nat
deriving DecidableEq

/-- `AddressPayload` (`address.rs` lines 396–416); the hash newtypes
(`PubkeyHash`, `ScriptHash`, `WPubkeyHash`, `WScriptHash`) are modelled as
their raw byte strings. -/
inductive AddressPayload
  | Pkh (hash : List Nat)
  | Sh (hash : List Nat)
  | Wpkh (hash : List Nat)
  | Wsh (hash : List Nat)
  | Tr (pk : TaprootPk)
deriving DecidableEq

/-- `AddressNetwork` (`address.rs` lines 528–537). -/
inductive AddressNetwork
  | Mainnet
  | Testnet
  | Regtest
deriving DecidableEq

/-- `AddressNetwork::bech32_hrp` (`address.rs` lines 544–550). -/
def AddressNetwork.bech32_hrp : AddressNetwork → Str
  | .Mainnet => ['b', 'c']
  | .Testnet => ['t', 'b']
  | .Regtest => ['b', 'c', 'r', 't']

/-- `Address` (`address.rs` lines 96–102). -/
structure Address where
  payload : AddressPayload
  network : AddressNetwork
deriving DecidableEq

/-- `Address::new` (`address.rs` lines 105–107). -/
def Address.new (payload : AddressPayload) (network : AddressNetwork) : Address :=
  { payload, network }

/-- Wellformedness of an address payload as the Rust newtypes guarantee it:
fixed hash lengths, octet-sized entries, and a taproot key the external
validity predicate accepts. -/
def AddressPayload.wf (tap_valid : List Nat → Bool) : AddressPayload → Prop
  | .Pkh h => h.length = 20 ∧ bytesWf h
  | .Sh h => h.length = 20 ∧ bytesWf h
  | .Wpkh h => h.length = 20 ∧ bytesWf h
  | .Wsh h => h.length = 32 ∧ bytesWf h
  | .Tr pk => pk.bytes.length = 32 ∧ bytesWf pk.bytes ∧ tap_valid pk.bytes = true

instance (tap_valid : List Nat → Bool) (p : AddressPayload) :
    Decidable (p.wf tap_valid) := by
  cases p <;> simp only [AddressPayload.wf] <;> infer_instance

/-- Wellformedness of an address value. -/
def Address.wf (tap_valid : List Nat → Bool) (a : Address) : Prop :=
  a.payload.wf tap_valid

instance (tap_valid : List Nat → Bool) (a : Address) : Decidable (a.wf tap_valid) := by
  unfold Address.wf; infer_instance

/-- `impl Display for Address` (`address.rs` lines 130–181), non-alternate
form: legacy payloads go through Base58Check of version byte ‖ hash with
the version byte selected by payload kind × network-is-mainnet; segwit
payloads are bech32-written as hrp, witness version 5-bit group, then the
5-bit-regrouped program, with the variant fixed by the witness version.
`bech32_enc` takes hrp, variant and the 5-bit groups. -/
def Address.to_string (sha256 : List Nat → List Nat) (b58enc : List Nat → Str)
    (bech32_enc : Str → Variant → List Nat → Str)
    (to_base32 : List Nat → List Nat) (a : Address) : Str :=
  match a.payload with
  | .Pkh hash =>
    let v := match a.network with
      | .Mainnet => PUBKEY_ADDRESS_PREFIX_MAIN
      | _ => PUBKEY_ADDRESS_PREFIX_TEST
    base58.encode_check sha256 b58enc (v :: hash)
  | .Sh hash =>
    let v := match a.network with
      | .Mainnet => SCRIPT_ADDRESS_PREFIX_MAIN
      | _ => SCRIPT_ADDRESS_PREFIX_TEST
    base58.encode_check sha256 b58enc (v :: hash)
  | .Wpkh hash => bech32_enc a.network.bech32_hrp .bech32 (0 :: to_base32 hash)
  | .Wsh hash => bech32_enc a.network.bech32_hrp .bech32 (0 :: to_base32 hash)
  | .Tr pk => bech32_enc a.network.bech32_hrp .bech32m (1 :: to_base32 pk.bytes)

/-- The `parse_base58` closure inside `Address::from_str` (`address.rs`
lines 187–217): oversized-input guard, Base58Check decode, exact 21-byte
requirement, then the version-byte table (the source's two matches on
`data[0]` are flattened into one four-way dispatch). -/
def Address.parse_base58 (sha256 : List Nat → List Nat)
    (b58dec : Str → Option (List Nat)) (s : Str) :
    Except AddressParseError Address :=
  if s.length > 50 then .error (.Base58 (.invalidLength (s.length * 11 / 15)))
  else
    match base58.decode_check sha256 b58dec s with
    | .error e => .error (.Base58 e)
    | .ok data =>
      if data.length ≠ 21 then .error (.Base58 (.invalidLength data.length))
      else
        let v := data.headD 0
        if v = PUBKEY_ADDRESS_PREFIX_MAIN then .ok (Address.new (.Pkh data.tail) .Mainnet)
        else if v = SCRIPT_ADDRESS_PREFIX_MAIN then .ok (Address.new (.Sh data.tail) .Mainnet)
        else if v = PUBKEY_ADDRESS_PREFIX_TEST then .ok (Address.new (.Pkh data.tail) .Testnet)
        else if v = SCRIPT_ADDRESS_PREFIX_TEST then .ok (Address.new (.Sh data.tail) .Testnet)
        else .error (.InvalidAddressVersion v)

/-- The `parse_bech32` closure inside `Address::from_str` (`address.rs`
lines 219–268): map the human-readable part to a network (falling back to
legacy parsing on an unrecognised one), split off the witness-version
group, range-check it (`WitnessVer::from_version_no` accepts 0–16), 5-bit
regroup the program, then dispatch on (version, variant, program length)
in the source's arm order.  The source indexes `payload[0]` and panics on
an empty bech32 payload; that out-of-claims case is modelled by `headD`. -/
def Address.parse_bech32 (sha256 : List Nat → List Nat)
    (b58dec : Str → Option (List Nat))
    (from_base32 : List Nat → Option (List Nat)) (tap_valid : List Nat → Bool)
    (s : Str) (hri : Str) (payload : List Nat) (variant : Variant) :
    Except AddressParseError Address :=
  let network : Option AddressNetwork :=
    if hri = ['b', 'c'] ∨ hri = ['B', 'C'] then some .Mainnet
    else if hri = ['t', 'b'] ∨ hri = ['T', 'B'] then some .Testnet
    else if hri = ['b', 'c', 'r', 't'] ∨ hri = ['B', 'C', 'R', 'T'] then some .Regtest
    else none
  match network with
  | none => Address.parse_base58 sha256 b58dec s
  | some network =>
    let wv := payload.headD 0
    let p5 := payload.tail
    if wv > 16 then .error (.InvalidWitnessVersion wv)
    else
      match from_base32 p5 with
      | none => .error (.Bech32 .invalidData)
      | some program =>
        if wv = 0 ∧ variant = .bech32 ∧ program.length = 20 then
          .ok (Address.new (.Wpkh program) network)
        else if wv = 0 ∧ variant = .bech32 ∧ program.length = 32 then
          .ok (Address.new (.Wsh program) network)
        else if wv = 1 ∧ variant = .bech32m ∧ program.length = 32 then
          if tap_valid program then .ok (Address.new (.Tr ⟨program⟩) network)
          else .error .WrongPublicKeyData
        else if wv = 1 ∧ variant = .bech32m then
          .error (.FutureTaprootVersion program.length s)
        else if wv = 0 ∨ wv = 1 then .error (.InvalidBech32Variant variant)
        else .error (.FutureWitnessVersion wv)

/-- `impl FromStr for Address` (`address.rs` lines 183–277): attempt bech32
decoding first; on success dispatch through `parse_bech32`, on failure fall
back to legacy parsing with every legacy error collapsed into
`UnrecognizableFormat`. -/
def Address.from_str (sha256 : List Nat → List Nat)
    (b58dec : Str → Option (List Nat))
    (bech32_dec : Str → Option (Str × List Nat × Variant))
    (from_base32 : List Nat → Option (List Nat)) (tap_valid : List Nat → Bool)
    (s : Str) : Except AddressParseError Address :=
  match bech32_dec s with
  | some (hri, payload, variant) =>
    Address.parse_bech32 sha256 b58dec from_base32 tap_valid s hri payload variant
  | none =>
    match Address.parse_base58 sha256 b58dec s with
    | .ok a => .ok a
    | .error _ => .error (.UnrecognizableFormat s)

/-- Legacy (pre-segwit) payload discrimination: `Pkh` and `Sh` are the two
Base58Check-encoded payload kinds. -/
def AddressPayload.segwit : AddressPayload → Bool
  | .Pkh _ => false
  | .Sh _ => false
  | .Wpkh _ => true
  | .Wsh _ => true
  | .Tr _ => true

/-! ## Concrete stand-ins for the external primitives

Executable instantiations of the external-collaborator parameters,
satisfying the call contracts the spec gives them (§1, §6); they make the
theorems below evaluable at concrete inputs. -/

namespace Toy

/-- Stand-in SHA-256: constant 32-byte output. -/
def sha256 : List Nat → List Nat := fun _ => List.replicate 32 0

/-- Stand-in HASH160: constant 20-byte output. -/
def hash160 : List Nat → List Nat := fun _ => List.replicate 20 0

/-- Stand-in HMAC-SHA512: constant 64-byte output. -/
def hmac512 : List Nat → List Nat → List Nat := fun _ _ => List.replicate 64 0

/-- Stand-in EC tweak addition: keeps the base point bytes. -/
def tweak_add : List Nat → List Nat → List Nat := fun p _ => p

/-- Stand-in secp256k1 pubkey validity: accepts everything. -/
def pk_valid : List Nat → Bool := fun _ => true

/-- Stand-in x-only key validity: accepts everything. -/
def tap_valid : List Nat → Bool := fun _ => true

/-- Stand-in base-58 alphabet encoding: a sentinel letter followed by the
bytes as characters; injective, with `b58dec` as inverse. -/
def b58enc (l : List Nat) : Str := 'L' :: l.map Char.ofNat

/-- Inverse of the stand-in base-58 alphabet encoding. -/
def b58dec (s : Str) : Option (List Nat) :=
  match s with
  | 'L' :: cs => some (cs.map Char.toNat)
  | _ => none

/-- Stand-in human-readable-part marker character. -/
def hrpChar (h : Str) : Char :=
  if h = ['b', 'c'] then 'b'
  else if h = ['t', 'b'] then 't'
  else if h = ['b', 'c', 'r', 't'] then 'r'
  else '?'

/-- Inverse of `hrpChar` on the recognised human-readable parts. -/
def charHrp (c : Char) : Option Str :=
  if c = 'b' then some ['b', 'c']
  else if c = 't' then some ['t', 'b']
  else if c = 'r' then some ['b', 'c', 'r', 't']
  else none

/-- Stand-in variant marker character. -/
def variantChar : Variant → Char
  | .bech32 => 'Q'
  | .bech32m => 'M'

/-- Inverse of `variantChar`. -/
def charVariant (c : Char) : Option Variant :=
  if c = 'Q' then some .bech32 else if c = 'M' then some .bech32m else none

/-- Stand-in bech32 string encoding of (hrp, 5-bit groups, variant). -/
def bech32_enc (h : Str) (v : Variant) (d : List Nat) : Str :=
  hrpChar h :: variantChar v :: d.map Char.ofNat

/-- Stand-in bech32 decoding, inverse of `bech32_enc` on recognised hrps;
rejects anything else, in particular every `b58enc` output. -/
def bech32_dec (s : Str) : Option (Str × List Nat × Variant) :=
  match s with
  | hc :: vc :: rest =>
    match charHrp hc, charVariant vc with
    | some h, some v => some (h, rest.map Char.toNat, v)
    | _, _ => none
  | _ => none

/-- Stand-in 5-bit regrouping: each byte as two base-32 digits. -/
def to_base32 (l : List Nat) : List Nat := (l.map (fun b => [b / 32, b % 32])).flatten

/-- Inverse of the stand-in 5-bit regrouping. -/
def from_base32 : List Nat → Option (List Nat)
  | [] => some []
  | [_] => none
  | a :: b :: rest => (from_base32 rest).map (fun r => (a * 32 + b) :: r)

/-- Fixed origin parser: path `0'` (the mainnet network index). -/
def po_net : Str → Except XpubParseError XpubOrigin :=
  fun _ => .ok ⟨[0, 0, 0, 0], [HARDENED_BOUNDARY]⟩

/-- Fixed xpub parser: a testnet xpub of depth 1 whose child number is the
hardened index `0'` — consistent in depth, inconsistent in network. -/
def px_net : Str → Except XpubParseError Xpub :=
  fun _ => .ok ⟨true, ⟨1, [0, 0, 0, 0], HARDENED_BOUNDARY⟩,
    ⟨⟨List.replicate 33 2⟩, List.replicate 32 0⟩⟩

/-- Fixed origin parser: path `1'` (the testnet network index). -/
def po_parent : Str → Except XpubParseError XpubOrigin :=
  fun _ => .ok ⟨[0, 0, 0, 0], [HARDENED_BOUNDARY + 1]⟩

/-- Fixed xpub parser: a testnet xpub of depth 1 whose child number is 5 —
consistent in depth and network, inconsistent with the origin's last
element. -/
def px_parent : Str → Except XpubParseError Xpub :=
  fun _ => .ok ⟨true, ⟨1, [0, 0, 0, 0], 5⟩,
    ⟨⟨List.replicate 33 2⟩, List.replicate 32 0⟩⟩

end Toy

/-- Concrete extended pubkey sitting at the maximal `u8` depth 255. -/
def xpubDepth255 : Xpub :=
  ⟨false, ⟨255, [1, 2, 3, 4], 7⟩, ⟨⟨List.replicate 33 2⟩, List.replicate 32 9⟩⟩

/-- Concrete wellformed extended pubkey (depth 0 master key shape). -/
def xpubSample : Xpub :=
  ⟨false, ⟨0, [0, 0, 0, 0], 0⟩, ⟨⟨List.replicate 33 2⟩, List.replicate 32 1⟩⟩

/-! # Helper lemmas -/

theorem u32ToBe_length (n : Nat) : (u32ToBe n).length = 4 := rfl

theorem u32ToBe_wf (n : Nat) : bytesWf (u32ToBe n) := by
  intro b hb
  simp only [u32ToBe, List.mem_cons, List.not_mem_nil, or_false] at hb
  rcases hb with rfl | rfl | rfl | rfl <;> omega

theorem u32FromBe_u32ToBe (n : Nat) (h : n < 2 ^ 32) : u32FromBe (u32ToBe n) = n := by
  simp only [u32ToBe, u32FromBe]
  omega

theorem base58.decode_check_encode_check (sha256 : List Nat → List Nat)
    (b58enc : List Nat → Str) (b58dec : Str → Option (List Nat))
    (payload : List Nat)
    (hsha : ∀ l, (sha256 l).length = 32)
    (hb58 : b58dec (b58enc (payload ++ (sha256 (sha256 payload)).take 4))
      = some (payload ++ (sha256 (sha256 payload)).take 4)) :
    base58.decode_check sha256 b58dec (base58.encode_check sha256 b58enc payload)
      = .ok payload := by
  have hck : ((sha256 (sha256 payload)).take 4).length = 4 := by
    simp [List.length_take, hsha]
  unfold base58.encode_check base58.decode_check
  rw [hb58]
  simp only [List.length_append, hck]
  rw [if_neg (by omega)]
  have h1 : payload.length + 4 - 4 = payload.length := by omega
  rw [h1, List.take_left, List.drop_left]
  simp

theorem charToNat_ofNat (b : Nat) (h : b < 256) : (Char.ofNat b).toNat = b := by
  have hv : b.isValidChar := Or.inl (by omega)
  simp [Char.ofNat, hv, Char.toNat, Char.ofNatAux, UInt32.toNat, BitVec.toNat_ofNatLt]

namespace Toy

theorem map_toNat_ofNat (l : List Nat) (h : bytesWf l) :
    (l.map Char.ofNat).map Char.toNat = l := by
  rw [List.map_map]
  conv_rhs => rw [← List.map_id l]
  exact List.map_congr_left fun a ha => charToNat_ofNat a (h a ha)

theorem sha256_length (l : List Nat) : (sha256 l).length = 32 := by simp [sha256]

theorem sha256_wf (l : List Nat) : bytesWf (sha256 l) := by
  intro b hb
  simp [sha256, List.eq_of_mem_replicate hb]

theorem b58dec_b58enc (l : List Nat) (h : bytesWf l) : b58dec (b58enc l) = some l := by
  simp [b58enc, b58dec, map_toNat_ofNat l h]

theorem bech32_dec_b58enc (l : List Nat) : bech32_dec (b58enc l) = none := by
  cases l with
  | nil => rfl
  | cons a as => simp [b58enc, bech32_dec, charHrp]

theorem b58enc_length (l : List Nat) : (b58enc l).length = l.length + 1 := by
  simp [b58enc]

theorem bech32_dec_bech32_enc (h : Str) (v : Variant) (d : List Nat)
    (hh : h = ['b', 'c'] ∨ h = ['t', 'b'] ∨ h = ['b', 'c', 'r', 't'])
    (hd : ∀ x ∈ d, x < 32) :
    bech32_dec (bech32_enc h v d) = some (h, d, v) := by
  have hd' : bytesWf d := fun b hb => Nat.lt_trans (hd b hb) (by omega)
  rcases hh with rfl | rfl | rfl <;> cases v <;>
    simp [bech32_enc, bech32_dec, hrpChar, charHrp, variantChar, charVariant,
      map_toNat_ofNat d hd']

theorem from_base32_to_base32 (l : List Nat) (h : bytesWf l) :
    from_base32 (to_base32 l) = some l := by
  induction l with
  | nil => rfl
  | cons a as ih =>
    have ha : a < 256 := h a (List.mem_cons_self a as)
    have has : bytesWf as := fun b hb => h b (List.mem_cons_of_mem _ hb)
    have step : to_base32 (a :: as) = a / 32 :: a % 32 :: to_base32 as := by
      simp [to_base32]
    rw [step, from_base32, ih has]
    simp only [Option.map_some']
    have hda : a / 32 * 32 + a % 32 = a := by omega
    rw [hda]

theorem to_base32_lt (l : List Nat) (h : bytesWf l) : ∀ x ∈ to_base32 l, x < 32 := by
  intro x hx
  simp only [to_base32, List.mem_flatten, List.mem_map] at hx
  obtain ⟨_, ⟨b, hb, rfl⟩, hx⟩ := hx
  have := h b hb
  simp only [List.mem_cons, List.not_mem_nil, or_false] at hx
  rcases hx with rfl | rfl <;> omega

theorem b58enc_le_50 (l : List Nat) (h : l.length = 25) : (b58enc l).length ≤ 50 := by
  rw [b58enc_length, h]
  omega

end Toy

theorem bytesWf_append {l1 l2 : List Nat} (h1 : bytesWf l1) (h2 : bytesWf l2) :
    bytesWf (l1 ++ l2) := by
  intro b hb
  rcases List.mem_append.mp hb with h | h
  · exact h1 b h
  · exact h2 b h

theorem bytesWf_take (n : Nat) {l : List Nat} (h : bytesWf l) : bytesWf (l.take n) :=
  fun b hb => h b (List.mem_of_mem_take hb)

/-! # Claim theorems -/

/-- C10: `Xpub::ckd_pub` does not guard the depth increment — at depth 255
the `u8` computation `255 + 1` wraps to 0 and no error is returned (the
function is total), so the child's depth is not the parent's depth plus
one. -/
theorem ckd_pub_depth_overflow (hash160 : List Nat → List Nat)
    (hmac512 : List Nat → List Nat → List Nat)
    (tweak_add : List Nat → List Nat → List Nat) (x : Xpub) (i : Nat)
    (hd : x.meta.depth = 255) :
    (x.ckd_pub hash160 hmac512 tweak_add i).meta.depth = 0 ∧
      (x.ckd_pub hash160 hmac512 tweak_add i).meta.depth ≠ x.meta.depth + 1 := by
  constructor <;> simp [Xpub.ckd_pub, hd]

theorem ckd_pub_depth_overflow_witness :
    xpubDepth255.meta.depth = 255 ∧
      (xpubDepth255.ckd_pub Toy.hash160 Toy.hmac512 Toy.tweak_add 7).meta.depth = 0 :=
  ⟨rfl, (ckd_pub_depth_overflow Toy.hash160 Toy.hmac512 Toy.tweak_add xpubDepth255 7 rfl).1⟩

/-- C8 (amended to depths below 255, where the `u8` increment cannot wrap):
the child returned by `ckd_pub` has parent fingerprint `x.fingerprint()`
(the first 4 bytes of hash160 of the serialised compressed public key),
depth one more than `x`'s, the requested child number, and `x`'s network
flag. -/
theorem ckd_pub_meta_consistency (hash160 : List Nat → List Nat)
    (hmac512 : List Nat → List Nat → List Nat)
    (tweak_add : List Nat → List Nat → List Nat) (x : Xpub) (i : Nat)
    (hd : x.meta.depth < 255) :
    (x.ckd_pub hash160 hmac512 tweak_add i).meta.parent_fp = x.fingerprint hash160 ∧
      x.fingerprint hash160 = (hash160 x.core.public_key.bytes).take 4 ∧
      (x.ckd_pub hash160 hmac512 tweak_add i).meta.depth = x.meta.depth + 1 ∧
      (x.ckd_pub hash160 hmac512 tweak_add i).meta.child_number = i ∧
      (x.ckd_pub hash160 hmac512 tweak_add i).testnet = x.testnet := by
  refine ⟨rfl, rfl, ?_, rfl, rfl⟩
  simp only [Xpub.ckd_pub]
  omega

theorem ckd_pub_meta_consistency_witness :
    xpubSample.meta.depth < 255 ∧
      (xpubSample.ckd_pub Toy.hash160 Toy.hmac512 Toy.tweak_add 3).meta.depth
        = xpubSample.meta.depth + 1 :=
  ⟨by decide,
    (ckd_pub_meta_consistency Toy.hash160 Toy.hmac512 Toy.tweak_add xpubSample 3
      (by decide)).2.2.1⟩

/-- C8 counterexample: at depth 255 the claim's universally quantified
depth law fails — the child's depth wraps to 0 instead of 256. -/
theorem ckd_pub_depth255_counterexample :
    (xpubDepth255.ckd_pub Toy.hash160 Toy.hmac512 Toy.tweak_add 0).meta.depth
      ≠ xpubDepth255.meta.depth + 1 := by decide

/-- C5: `Xpub::decode` reports wrong length (with the observed length)
for every input that is not exactly 78 bytes, before any other check;
an unknown 4-byte magic on a 78-byte input yields the unknown-key-type
error carrying those bytes; and a known magic with a compressed public key
the secp256k1 parser rejects yields the invalid-public-key error. -/
theorem xpub_decode_error_discrimination (pk_valid : List Nat → Bool) :
    (∀ data : List Nat, data.length ≠ 78 →
      Xpub.decode pk_valid data = .error (.WrongExtendedKeyLength data.length)) ∧
    (∀ data : List Nat, data.length = 78 → data.take 4 ≠ XPUB_MAINNET_MAGIC →
      data.take 4 ≠ XPUB_TESTNET_MAGIC →
      Xpub.decode pk_valid data = .error (.UnknownKeyType (data.take 4))) ∧
    (∀ data : List Nat, data.length = 78 →
      (data.take 4 = XPUB_MAINNET_MAGIC ∨ data.take 4 = XPUB_TESTNET_MAGIC) →
      pk_valid (data.drop 45) = false →
      Xpub.decode pk_valid data = .error .InvalidPublicKey) := by
  refine ⟨fun data h => by simp [Xpub.decode, h], fun data h h1 h2 => ?_, fun data h hm hpk => ?_⟩
  · simp [Xpub.decode, h, h1, h2]
  · simp [Xpub.decode, h, hm, PublicKey.from_slice, hpk]

theorem xpub_decode_error_discrimination_witness :
    Xpub.decode (fun _ => false) [0] = .error (.WrongExtendedKeyLength 1) ∧
    Xpub.decode (fun _ => false) (List.replicate 78 0)
      = .error (.UnknownKeyType [0, 0, 0, 0]) ∧
    Xpub.decode (fun _ => false) (XPUB_MAINNET_MAGIC ++ List.replicate 74 0)
      = .error .InvalidPublicKey := by
  refine ⟨(xpub_decode_error_discrimination (fun _ => false)).1 [0] (by decide), ?_, ?_⟩
  · have h := (xpub_decode_error_discrimination (fun _ => false)).2.1
      (List.replicate 78 0) (by decide) (by decide) (by decide)
    simpa using h
  · exact (xpub_decode_error_discrimination (fun _ => false)).2.2
      (XPUB_MAINNET_MAGIC ++ List.replicate 74 0) (by decide) (by decide) (by decide)

/-- C1: the three descriptor consistency checks do NOT report distinct
variants — the network-mismatch and parent-mismatch situations both come
back as `DepthMismatch` (xpub.rs lines 354 and 357), although the
`NetworkMismatch` and `ParentMismatch` variants exist.  The first input
has a depth-consistent origin whose last element is the wrong network
index; the second is network-consistent but disagrees with the xpub's
child number. -/
theorem descriptor_mismatch_error_collapsed :
    XpubDescriptor.from_str Toy.po_net Toy.px_net ['[', 'o', ']', 'x']
      = .error .DepthMismatch ∧
    XpubDescriptor.from_str Toy.po_parent Toy.px_parent ['[', 'o', ']', 'x']
      = .error .DepthMismatch ∧
    XpubParseError.DepthMismatch ≠ XpubParseError.NetworkMismatch ∧
    XpubParseError.DepthMismatch ≠ XpubParseError.ParentMismatch := by
  refine ⟨by rfl, by rfl, by decide, by decide⟩

theorem deriveBatchGo_eq {D : Type} (derive : Nat → Nat → D) (change : Nat) :
    ∀ k index count max_count, max_count - count = k → index < HARDENED_BOUNDARY →
      count < max_count →
      deriveBatchGo derive change index count max_count
        = (List.range' index (min (max_count - count) (HARDENED_BOUNDARY - index))).map
            (derive change) := by
  intro k
  induction k with
  | zero => intro index count max_count hk hi hc; omega
  | succ k ih =>
    intro index count max_count hk hi hc
    rw [deriveBatchGo]
    by_cases hov : index + 1 < HARDENED_BOUNDARY
    · simp only [checkedInc, if_pos hov]
      by_cases hcnt : count + 1 ≥ max_count
      · simp only [if_pos hcnt]
        have h1 : min (max_count - count) (HARDENED_BOUNDARY - index) = 1 := by omega
        rw [h1]
        simp [List.range'_one]
      · simp only [if_neg hcnt]
        rw [ih (index + 1) (count + 1) max_count (by omega) (by omega) (by omega)]
        have h2 : min (max_count - count) (HARDENED_BOUNDARY - index)
            = min (max_count - (count + 1)) (HARDENED_BOUNDARY - (index + 1)) + 1 := by
          omega
        rw [h2, List.range'_succ]
        simp
    · simp only [checkedInc, if_neg hov]
      have h1 : min (max_count - count) (HARDENED_BOUNDARY - index) = 1 := by omega
      rw [h1]
      simp [List.range'_one]

/-- C3 (amended): for every count `n ≥ 1`, `derive_batch(change, from, n)`
is exactly the sequence of `derive(change, i)` at `n` successive indices
starting at `from`, truncated exactly where incrementing would overflow the
normal-index range; for `n = 0` the do-while loop still runs once, so the
result is the single element at `from` rather than the empty sequence. -/
theorem derive_batch_eq_seq {D : Type} (derive : Nat → Nat → D) (change from_ n : Nat)
    (hfrom : from_ < HARDENED_BOUNDARY) :
    (1 ≤ n → derive_batch derive change from_ n = seqDerive derive change from_ n) ∧
      derive_batch derive change from_ 0 = [derive change from_] := by
  constructor
  · intro hn
    unfold derive_batch seqDerive
    rw [deriveBatchGo_eq derive change n from_ 0 n (by omega) hfrom (by omega)]
    simp
  · unfold derive_batch
    rw [deriveBatchGo]
    cases hc : checkedInc from_ <;> simp

theorem derive_batch_eq_seq_witness :
    (5 : Nat) < HARDENED_BOUNDARY ∧ (1 : Nat) ≤ 3 ∧
      derive_batch (fun c i => (c, i)) 1 5 3 = seqDerive (fun c i => (c, i)) 1 5 3 :=
  ⟨by decide, by decide,
    (derive_batch_eq_seq (fun c i => (c, i)) 1 5 3 (by decide)).1 (by decide)⟩

/-- C3 counterexample: at count `n = 0` the loop body has already pushed
one element before the count is checked, so the batch has one element where
the claim requires zero. -/
theorem derive_batch_zero_counterexample :
    derive_batch (fun c i => (c, i)) 0 5 0 = [(0, 5)] ∧
      seqDerive (fun c i => (c, i)) 0 5 0 = ([] : List (Nat × Nat)) := by
  constructor
  · unfold derive_batch
    rw [deriveBatchGo]
    norm_num [checkedInc, HARDENED_BOUNDARY]
  · simp [seqDerive]

theorem parse_base58_network (sha256 : List Nat → List Nat)
    (b58dec : Str → Option (List Nat)) (s : Str) (a : Address)
    (h : Address.parse_base58 sha256 b58dec s = .ok a) :
    a.network = .Mainnet ∨ a.network = .Testnet := by
  unfold Address.parse_base58 at h
  split at h
  · exact absurd h (by simp)
  split at h
  · exact absurd h (by simp)
  split at h
  · exact absurd h (by simp)
  simp only [PUBKEY_ADDRESS_PREFIX_MAIN, SCRIPT_ADDRESS_PREFIX_MAIN,
    PUBKEY_ADDRESS_PREFIX_TEST, SCRIPT_ADDRESS_PREFIX_TEST] at h
  split at h
  · obtain rfl : _ = a := by injection h
    simp [Address.new]
  split at h
  · obtain rfl : _ = a := by injection h
    simp [Address.new]
  split at h
  · obtain rfl : _ = a := by injection h
    simp [Address.new]
  split at h
  · obtain rfl : _ = a := by injection h
    simp [Address.new]
  exact absurd h (by simp)

theorem parse_bech32_segwit_or_fallback (sha256 : List Nat → List Nat)
    (b58dec : Str → Option (List Nat))
    (from_base32 : List Nat → Option (List Nat)) (tap_valid : List Nat → Bool)
    (s hri : Str) (payload : List Nat) (variant : Variant) (a : Address)
    (h : Address.parse_bech32 sha256 b58dec from_base32 tap_valid s hri payload variant
      = .ok a) :
    a.payload.segwit = true ∨ Address.parse_base58 sha256 b58dec s = .ok a := by
  unfold Address.parse_bech32 at h
  simp only [] at h
  split at h
  · exact Or.inr h
  split at h
  · exact absurd h (by simp)
  split at h
  · exact absurd h (by simp)
  split at h
  · obtain rfl : _ = a := by injection h
    exact Or.inl rfl
  split at h
  · obtain rfl : _ = a := by injection h
    exact Or.inl rfl
  split at h
  · split at h
    · obtain rfl : _ = a := by injection h
      exact Or.inl rfl
    · exact absurd h (by simp)
  split at h
  · exact absurd h (by simp)
  split at h
  · exact absurd h (by simp)
  exact absurd h (by simp)

/-- C9: every string accepted through the legacy Base58Check branch (the
only branch producing `Pkh` / `Sh` payloads) maps the two test version
bytes 111 and 196 to `Testnet`, so no parsed legacy address is ever
`Regtest`. -/
theorem legacy_parse_no_regtest (sha256 : List Nat → List Nat)
    (b58dec : Str → Option (List Nat))
    (bech32_dec : Str → Option (Str × List Nat × Variant))
    (from_base32 : List Nat → Option (List Nat)) (tap_valid : List Nat → Bool)
    (s : Str) (a : Address)
    (hok : Address.from_str sha256 b58dec bech32_dec from_base32 tap_valid s = .ok a)
    (hleg : a.payload.segwit = false) :
    a.network ≠ AddressNetwork.Regtest := by
  unfold Address.from_str at hok
  split at hok
  · rcases parse_bech32_segwit_or_fallback _ _ _ _ _ _ _ _ _ hok with hsw | hfb
    · rw [hleg] at hsw
      exact absurd hsw (by simp)
    · rcases parse_base58_network _ _ _ _ hfb with h | h <;> simp [h]
  · split at hok
    · rename_i a2 ha2
      obtain rfl : a2 = a := by injection hok
      rcases parse_base58_network _ _ _ _ ha2 with h | h <;> simp [h]
    · exact absurd hok (by simp)

/-- C6: a bech32-decoded address string with a recognised network prefix
carrying witness version 0 under the Bech32m variant, or witness version 1
under the Bech32 variant, fails with the invalid-bech32-variant error
carrying the variant. -/
theorem invalid_bech32_variant_error (sha256 : List Nat → List Nat)
    (b58dec : Str → Option (List Nat))
    (bech32_dec : Str → Option (Str × List Nat × Variant))
    (from_base32 : List Nat → Option (List Nat)) (tap_valid : List Nat → Bool)
    (s hri : Str) (wv : Nat) (p5 program : List Nat) (variant : Variant)
    (hdec : bech32_dec s = some (hri, wv :: p5, variant))
    (hnet : hri = ['b', 'c'] ∨ hri = ['B', 'C'] ∨ hri = ['t', 'b'] ∨ hri = ['T', 'B'] ∨
      hri = ['b', 'c', 'r', 't'] ∨ hri = ['B', 'C', 'R', 'T'])
    (hprog : from_base32 p5 = some program)
    (hv : (wv = 0 ∧ variant = .bech32m) ∨ (wv = 1 ∧ variant = .bech32)) :
    Address.from_str sha256 b58dec bech32_dec from_base32 tap_valid s
      = .error (.InvalidBech32Variant variant) := by
  unfold Address.from_str
  rw [hdec]
  unfold Address.parse_bech32
  rcases hv with ⟨rfl, rfl⟩ | ⟨rfl, rfl⟩ <;>
    rcases hnet with rfl | rfl | rfl | rfl | rfl | rfl <;>
      simp [hprog]

theorem invalid_bech32_variant_error_witness :
    Address.from_str Toy.sha256 Toy.b58dec Toy.bech32_dec Toy.from_base32 Toy.tap_valid
        (Toy.bech32_enc ['b', 'c'] Variant.bech32m [0])
      = .error (.InvalidBech32Variant .bech32m) :=
  invalid_bech32_variant_error Toy.sha256 Toy.b58dec Toy.bech32_dec Toy.from_base32
    Toy.tap_valid _ ['b', 'c'] 0 [] [] .bech32m (by decide) (Or.inl rfl) (by decide)
    (Or.inl ⟨rfl, rfl⟩)

/-- C7: with a recognised network prefix, a witness-version-0 program whose
length is neither 20 nor 32 bytes makes `Address::from_str` fail, and a
witness-version-1 Bech32m program whose length is not 32 bytes fails with
the future-taproot-version error carrying the actual program length. -/
theorem segwit_program_length_errors (sha256 : List Nat → List Nat)
    (b58dec : Str → Option (List Nat))
    (bech32_dec : Str → Option (Str × List Nat × Variant))
    (from_base32 : List Nat → Option (List Nat)) (tap_valid : List Nat → Bool) :
    (∀ (s hri : Str) (p5 program : List Nat) (variant : Variant),
      bech32_dec s = some (hri, 0 :: p5, variant) →
      (hri = ['b', 'c'] ∨ hri = ['B', 'C'] ∨ hri = ['t', 'b'] ∨ hri = ['T', 'B'] ∨
        hri = ['b', 'c', 'r', 't'] ∨ hri = ['B', 'C', 'R', 'T']) →
      from_base32 p5 = some program →
      program.length ≠ 20 → program.length ≠ 32 →
      ∃ e, Address.from_str sha256 b58dec bech32_dec from_base32 tap_valid s
        = .error e) ∧
    (∀ (s hri : Str) (p5 program : List Nat),
      bech32_dec s = some (hri, 1 :: p5, .bech32m) →
      (hri = ['b', 'c'] ∨ hri = ['B', 'C'] ∨ hri = ['t', 'b'] ∨ hri = ['T', 'B'] ∨
        hri = ['b', 'c', 'r', 't'] ∨ hri = ['B', 'C', 'R', 'T']) →
      from_base32 p5 = some program →
      program.length ≠ 32 →
      Address.from_str sha256 b58dec bech32_dec from_base32 tap_valid s
        = .error (.FutureTaprootVersion program.length s)) := by
  constructor
  · intro s hri p5 program variant hdec hnet hprog h20 h32
    refine ⟨.InvalidBech32Variant variant, ?_⟩
    unfold Address.from_str
    rw [hdec]
    unfold Address.parse_bech32
    rcases hnet with rfl | rfl | rfl | rfl | rfl | rfl <;> simp [hprog, h20, h32]
  · intro s hri p5 program hdec hnet hprog h32
    unfold Address.from_str
    rw [hdec]
    unfold Address.parse_bech32
    rcases hnet with rfl | rfl | rfl | rfl | rfl | rfl <;> simp [hprog, h32]

theorem segwit_program_length_errors_witness :
    (∃ e, Address.from_str Toy.sha256 Toy.b58dec Toy.bech32_dec Toy.from_base32
        Toy.tap_valid
        (Toy.bech32_enc ['t', 'b'] Variant.bech32 (0 :: Toy.to_base32 (List.replicate 5 1)))
      = .error e) ∧
    Address.from_str Toy.sha256 Toy.b58dec Toy.bech32_dec Toy.from_base32 Toy.tap_valid
        (Toy.bech32_enc ['b', 'c'] Variant.bech32m (1 :: Toy.to_base32 (List.replicate 5 1)))
      = .error (.FutureTaprootVersion 5
          (Toy.bech32_enc ['b', 'c'] Variant.bech32m
            (1 :: Toy.to_base32 (List.replicate 5 1)))) := by
  have h := segwit_program_length_errors Toy.sha256 Toy.b58dec Toy.bech32_dec
    Toy.from_base32 Toy.tap_valid
  constructor
  · exact h.1 _ ['t', 'b'] (Toy.to_base32 (List.replicate 5 1)) (List.replicate 5 1)
      .bech32 (by decide) (by simp) (by decide) (by decide) (by decide)
  · exact h.2 _ ['b', 'c'] (Toy.to_base32 (List.replicate 5 1)) (List.replicate 5 1)
      (by decide) (by simp) (by decide) (by decide)

theorem Xpub.encode_length (x : Xpub) (hfpl : x.meta.parent_fp.length = 4)
    (hccl : x.core.chain_code.length = 32) (hpkl : x.core.public_key.bytes.length = 33) :
    x.encode.length = 78 := by
  have hMl : (if x.testnet then XPUB_TESTNET_MAGIC else XPUB_MAINNET_MAGIC).length = 4 := by
    cases x.testnet <;> rfl
  simp only [Xpub.encode, List.length_append, hMl, hfpl, hccl, hpkl, u32ToBe_length,
    List.length_cons, List.length_nil]

theorem Xpub.encode_wf (pk_valid : List Nat → Bool) (x : Xpub) (h : x.wf pk_valid) :
    bytesWf x.encode := by
  obtain ⟨hd, hfpl, hfpw, hcn, hccl, hccw, hpkl, hpkw, hpkv⟩ := h
  have hM : bytesWf (if x.testnet then XPUB_TESTNET_MAGIC else XPUB_MAINNET_MAGIC) := by
    cases x.testnet <;> decide
  have hD : bytesWf [x.meta.depth] := by
    intro b hb
    simp only [List.mem_cons, List.not_mem_nil, or_false] at hb
    exact hb ▸ hd
  exact bytesWf_append (bytesWf_append (bytesWf_append (bytesWf_append
    (bytesWf_append hM hD) hfpw) (u32ToBe_wf _)) hccw) hpkw

theorem Xpub.decode_encode (pk_valid : List Nat → Bool) (x : Xpub) (h : x.wf pk_valid) :
    Xpub.decode pk_valid x.encode = .ok x := by
  obtain ⟨hd, hfpl, hfpw, hcn, hccl, hccw, hpkl, hpkw, hpkv⟩ := h
  have hMl : (if x.testnet then XPUB_TESTNET_MAGIC else XPUB_MAINNET_MAGIC).length = 4 := by
    cases x.testnet <;> rfl
  have hassoc : x.encode
      = (if x.testnet then XPUB_TESTNET_MAGIC else XPUB_MAINNET_MAGIC) ++
        ([x.meta.depth] ++ (x.meta.parent_fp ++ (u32ToBe x.meta.child_number ++
          (x.core.chain_code ++ x.core.public_key.bytes)))) := by
    simp [Xpub.encode, List.append_assoc]
  have hlen : x.encode.length = 78 := Xpub.encode_length x hfpl hccl hpkl
  have h_take4 : x.encode.take 4
      = (if x.testnet then XPUB_TESTNET_MAGIC else XPUB_MAINNET_MAGIC) := by
    rw [hassoc]
    exact List.take_left' hMl
  have h_drop4 : x.encode.drop 4
      = [x.meta.depth] ++ (x.meta.parent_fp ++ (u32ToBe x.meta.child_number ++
          (x.core.chain_code ++ x.core.public_key.bytes))) := by
    rw [hassoc]
    exact List.drop_left' hMl
  have h_drop5 : x.encode.drop 5
      = x.meta.parent_fp ++ (u32ToBe x.meta.child_number ++
          (x.core.chain_code ++ x.core.public_key.bytes)) := by
    have h1 : x.encode.drop 5 = (x.encode.drop 4).drop 1 := (List.drop_drop 1 4 _).symm
    rw [h1, h_drop4]
    rfl
  have h_drop9 : x.encode.drop 9
      = u32ToBe x.meta.child_number ++ (x.core.chain_code ++ x.core.public_key.bytes) := by
    have h1 : x.encode.drop 9 = (x.encode.drop 5).drop 4 := (List.drop_drop 4 5 _).symm
    rw [h1, h_drop5]
    exact List.drop_left' hfpl
  have h_drop13 : x.encode.drop 13
      = x.core.chain_code ++ x.core.public_key.bytes := by
    have h1 : x.encode.drop 13 = (x.encode.drop 9).drop 4 := (List.drop_drop 4 9 _).symm
    rw [h1, h_drop9]
    exact List.drop_left' (u32ToBe_length _)
  have h_drop45 : x.encode.drop 45 = x.core.public_key.bytes := by
    have h1 : x.encode.drop 45 = (x.encode.drop 13).drop 32 := (List.drop_drop 32 13 _).symm
    rw [h1, h_drop13]
    exact List.drop_left' hccl
  unfold Xpub.decode
  rw [if_neg (by simp [hlen])]
  rw [h_take4, h_drop4, h_drop5, h_drop9, h_drop13, h_drop45]
  have hfp_take : (x.meta.parent_fp ++ (u32ToBe x.meta.child_number ++
      (x.core.chain_code ++ x.core.public_key.bytes))).take 4 = x.meta.parent_fp :=
    List.take_left' hfpl
  have hbe_take : (u32ToBe x.meta.child_number ++
      (x.core.chain_code ++ x.core.public_key.bytes)).take 4 = u32ToBe x.meta.child_number :=
    List.take_left' (u32ToBe_length _)
  have hcc_take : (x.core.chain_code ++ x.core.public_key.bytes).take 32
      = x.core.chain_code := List.take_left' hccl
  rw [hfp_take, hbe_take, hcc_take]
  have hMem : (if x.testnet then XPUB_TESTNET_MAGIC else XPUB_MAINNET_MAGIC)
      = XPUB_MAINNET_MAGIC ∨
      (if x.testnet then XPUB_TESTNET_MAGIC else XPUB_MAINNET_MAGIC)
      = XPUB_TESTNET_MAGIC := by
    cases x.testnet
    · exact Or.inl rfl
    · exact Or.inr rfl
  rw [if_pos hMem]
  have hDec : decide ((if x.testnet then XPUB_TESTNET_MAGIC else XPUB_MAINNET_MAGIC)
      = XPUB_TESTNET_MAGIC) = x.testnet := by
    cases x.testnet <;> rfl
  simp only [PublicKey.from_slice, hpkv, if_true, hDec, u32FromBe_u32ToBe _ hcn]
  simp

/-- C4: for every wellformed `Xpub` value, decoding its 78-byte encoding
returns the same value, and parsing the Base58Check display string also
returns the same value. -/
theorem xpub_roundtrip (sha256 : List Nat → List Nat) (b58enc : List Nat → Str)
    (b58dec : Str → Option (List Nat)) (pk_valid : List Nat → Bool) (x : Xpub)
    (hwf : x.wf pk_valid)
    (hsha : ∀ l, (sha256 l).length = 32)
    (hshaWf : ∀ l, bytesWf (sha256 l))
    (hb58 : ∀ l, bytesWf l → b58dec (b58enc l) = some l) :
    Xpub.decode pk_valid x.encode = .ok x ∧
      Xpub.from_str sha256 b58dec pk_valid (x.to_string sha256 b58enc) = .ok x := by
  have hde := Xpub.decode_encode pk_valid x hwf
  refine ⟨hde, ?_⟩
  unfold Xpub.from_str Xpub.to_string
  rw [base58.decode_check_encode_check sha256 b58enc b58dec x.encode hsha
    (hb58 _ (bytesWf_append (Xpub.encode_wf pk_valid x hwf)
      (bytesWf_take 4 (hshaWf _))))]
  simp [hde]

theorem xpub_roundtrip_witness :
    xpubSample.wf Toy.pk_valid ∧
      Xpub.decode Toy.pk_valid xpubSample.encode = .ok xpubSample ∧
      Xpub.from_str Toy.sha256 Toy.b58dec Toy.pk_valid
        (xpubSample.to_string Toy.sha256 Toy.b58enc) = .ok xpubSample := by
  have h := xpub_roundtrip Toy.sha256 Toy.b58enc Toy.b58dec Toy.pk_valid xpubSample
    (by decide) Toy.sha256_length Toy.sha256_wf (fun l hl => Toy.b58dec_b58enc l hl)
  exact ⟨by decide, h.1, h.2⟩

theorem parse_base58_encode_check (sha256 : List Nat → List Nat)
    (b58enc : List Nat → Str) (b58dec : Str → Option (List Nat))
    (v : Nat) (hash : List Nat) (hv : v < 256) (hl : hash.length = 20) (hw : bytesWf hash)
    (hsha : ∀ l, (sha256 l).length = 32) (hshaWf : ∀ l, bytesWf (sha256 l))
    (hb58 : ∀ l, bytesWf l → b58dec (b58enc l) = some l)
    (hb58len : ∀ l, l.length = 25 → (b58enc l).length ≤ 50) :
    Address.parse_base58 sha256 b58dec (base58.encode_check sha256 b58enc (v :: hash))
      = (if v = PUBKEY_ADDRESS_PREFIX_MAIN then .ok (Address.new (.Pkh hash) .Mainnet)
        else if v = SCRIPT_ADDRESS_PREFIX_MAIN then .ok (Address.new (.Sh hash) .Mainnet)
        else if v = PUBKEY_ADDRESS_PREFIX_TEST then .ok (Address.new (.Pkh hash) .Testnet)
        else if v = SCRIPT_ADDRESS_PREFIX_TEST then .ok (Address.new (.Sh hash) .Testnet)
        else .error (.InvalidAddressVersion v)) := by
  have hck : bytesWf ((v :: hash) ++ (sha256 (sha256 (v :: hash))).take 4) := by
    refine bytesWf_append ?_ (bytesWf_take 4 (hshaWf _))
    intro b hb
    rcases List.mem_cons.mp hb with rfl | hb
    · exact hv
    · exact hw b hb
  have hlen25 : ((v :: hash) ++ (sha256 (sha256 (v :: hash))).take 4).length = 25 := by
    simp [List.length_append, hl, List.length_take, hsha]
  unfold Address.parse_base58
  rw [if_neg (by
    have h2 : (base58.encode_check sha256 b58enc (v :: hash)).length ≤ 50 := by
      unfold base58.encode_check
      exact hb58len _ hlen25
    omega)]
  rw [base58.decode_check_encode_check sha256 b58enc b58dec (v :: hash) hsha (hb58 _ hck)]
  simp only []
  have hlen21 : ¬ ((v :: hash).length ≠ 21) := by simp [hl]
  rw [if_neg hlen21]
  simp only [List.headD_cons, List.tail_cons]

/-- C2 (amended to exclude legacy payloads on Regtest, which re-parse with
network Testnet): for every wellformed Address whose payload is segwit or
whose network is not Regtest, parsing the Display string returns the same
value. -/
theorem address_roundtrip_amended (sha256 : List Nat → List Nat)
    (b58enc : List Nat → Str) (b58dec : Str → Option (List Nat))
    (bech32_enc : Str → Variant → List Nat → Str)
    (bech32_dec : Str → Option (Str × List Nat × Variant))
    (to_base32 : List Nat → List Nat) (from_base32 : List Nat → Option (List Nat))
    (tap_valid : List Nat → Bool) (a : Address)
    (hwf : a.wf tap_valid)
    (hsha : ∀ l, (sha256 l).length = 32)
    (hshaWf : ∀ l, bytesWf (sha256 l))
    (hb58 : ∀ l, bytesWf l → b58dec (b58enc l) = some l)
    (hb58len : ∀ l, l.length = 25 → (b58enc l).length ≤ 50)
    (hnob32 : ∀ l, bech32_dec (b58enc l) = none)
    (hb32 : ∀ h v d, (h = ['b', 'c'] ∨ h = ['t', 'b'] ∨ h = ['b', 'c', 'r', 't']) →
      (∀ x ∈ d, x < 32) → bech32_dec (bech32_enc h v d) = some (h, d, v))
    (hfrom : ∀ l, bytesWf l → from_base32 (to_base32 l) = some l)
    (hto : ∀ l, bytesWf l → ∀ x ∈ to_base32 l, x < 32)
    (hreg : a.network = .Regtest → a.payload.segwit = true) :
    Address.from_str sha256 b58dec bech32_dec from_base32 tap_valid
      (a.to_string sha256 b58enc bech32_enc to_base32) = .ok a := by
  obtain ⟨payload, network⟩ := a
  have hleg : ∀ (v : Nat), v < 256 →
      ∀ hash, hash.length = 20 → bytesWf hash →
      Address.from_str sha256 b58dec bech32_dec from_base32 tap_valid
        (base58.encode_check sha256 b58enc (v :: hash))
      = (if v = PUBKEY_ADDRESS_PREFIX_MAIN then .ok (Address.new (.Pkh hash) .Mainnet)
        else if v = SCRIPT_ADDRESS_PREFIX_MAIN then .ok (Address.new (.Sh hash) .Mainnet)
        else if v = PUBKEY_ADDRESS_PREFIX_TEST then .ok (Address.new (.Pkh hash) .Testnet)
        else if v = SCRIPT_ADDRESS_PREFIX_TEST then .ok (Address.new (.Sh hash) .Testnet)
        else .error (.UnrecognizableFormat
          (base58.encode_check sha256 b58enc (v :: hash)))) := by
    intro v hv hash hl hw
    unfold Address.from_str
    rw [show bech32_dec (base58.encode_check sha256 b58enc (v :: hash)) = none by
      unfold base58.encode_check
      exact hnob32 _]
    simp only []
    rw [parse_base58_encode_check sha256 b58enc b58dec v hash hv hl hw hsha hshaWf
      hb58 hb58len]
    by_cases h0 : v = PUBKEY_ADDRESS_PREFIX_MAIN
    · simp [h0, PUBKEY_ADDRESS_PREFIX_MAIN]
    by_cases h1 : v = SCRIPT_ADDRESS_PREFIX_MAIN
    · simp [h0, h1, PUBKEY_ADDRESS_PREFIX_MAIN, SCRIPT_ADDRESS_PREFIX_MAIN]
    by_cases h2 : v = PUBKEY_ADDRESS_PREFIX_TEST
    · simp [h0, h1, h2, PUBKEY_ADDRESS_PREFIX_MAIN, SCRIPT_ADDRESS_PREFIX_MAIN,
        PUBKEY_ADDRESS_PREFIX_TEST]
    by_cases h3 : v = SCRIPT_ADDRESS_PREFIX_TEST
    · simp [h0, h1, h2, h3, PUBKEY_ADDRESS_PREFIX_MAIN, SCRIPT_ADDRESS_PREFIX_MAIN,
        PUBKEY_ADDRESS_PREFIX_TEST, SCRIPT_ADDRESS_PREFIX_TEST]
    simp [h0, h1, h2, h3]
  cases payload with
  | Pkh hash =>
    obtain ⟨hl, hw⟩ := hwf
    cases network with
    | Mainnet =>
      simp only [Address.to_string]
      rw [hleg PUBKEY_ADDRESS_PREFIX_MAIN (by decide) hash hl hw]
      rfl
    | Testnet =>
      simp only [Address.to_string]
      rw [hleg PUBKEY_ADDRESS_PREFIX_TEST (by decide) hash hl hw]
      rfl
    | Regtest => exact absurd (hreg rfl) (by simp [AddressPayload.segwit])
  | Sh hash =>
    obtain ⟨hl, hw⟩ := hwf
    cases network with
    | Mainnet =>
      simp only [Address.to_string]
      rw [hleg SCRIPT_ADDRESS_PREFIX_MAIN (by decide) hash hl hw]
      rfl
    | Testnet =>
      simp only [Address.to_string]
      rw [hleg SCRIPT_ADDRESS_PREFIX_TEST (by decide) hash hl hw]
      rfl
    | Regtest => exact absurd (hreg rfl) (by simp [AddressPayload.segwit])
  | Wpkh hash =>
    obtain ⟨hl, hw⟩ := hwf
    have h5 : ∀ x ∈ (0 :: to_base32 hash), x < 32 := by
      intro x hx
      rcases List.mem_cons.mp hx with rfl | hx
      · omega
      · exact hto hash hw x hx
    cases network <;>
      (simp only [Address.to_string, AddressNetwork.bech32_hrp]
       unfold Address.from_str) <;>
      [rw [hb32 _ .bech32 _ (Or.inl rfl) h5];
       rw [hb32 _ .bech32 _ (Or.inr (Or.inl rfl)) h5];
       rw [hb32 _ .bech32 _ (Or.inr (Or.inr rfl)) h5]] <;>
      (unfold Address.parse_bech32
       simp [hfrom hash hw, hl, Address.new])
  | Wsh hash =>
    obtain ⟨hl, hw⟩ := hwf
    have h5 : ∀ x ∈ (0 :: to_base32 hash), x < 32 := by
      intro x hx
      rcases List.mem_cons.mp hx with rfl | hx
      · omega
      · exact hto hash hw x hx
    cases network <;>
      (simp only [Address.to_string, AddressNetwork.bech32_hrp]
       unfold Address.from_str) <;>
      [rw [hb32 _ .bech32 _ (Or.inl rfl) h5];
       rw [hb32 _ .bech32 _ (Or.inr (Or.inl rfl)) h5];
       rw [hb32 _ .bech32 _ (Or.inr (Or.inr rfl)) h5]] <;>
      (unfold Address.parse_bech32
       simp [hfrom hash hw, hl, Address.new])
  | Tr pk =>
    obtain ⟨pkb⟩ := pk
    obtain ⟨hl, hw, hv⟩ := hwf
    have h5 : ∀ x ∈ (1 :: to_base32 pkb), x < 32 := by
      intro x hx
      rcases List.mem_cons.mp hx with rfl | hx
      · omega
      · exact hto pkb hw x hx
    cases network <;>
      (simp only [Address.to_string, AddressNetwork.bech32_hrp]
       unfold Address.from_str) <;>
      [rw [hb32 _ .bech32m _ (Or.inl rfl) h5];
       rw [hb32 _ .bech32m _ (Or.inr (Or.inl rfl)) h5];
       rw [hb32 _ .bech32m _ (Or.inr (Or.inr rfl)) h5]] <;>
      (unfold Address.parse_bech32
       simp [hfrom pkb hw, hl, hv, Address.new])

/-- C2 counterexample: a legacy (Pkh) address on Regtest displays with the
test version byte 111, and parsing that string returns the same payload on
Testnet — not the original Regtest value. -/
theorem address_roundtrip_regtest_counterexample :
    Address.from_str Toy.sha256 Toy.b58dec Toy.bech32_dec Toy.from_base32 Toy.tap_valid
        ((Address.new (.Pkh (List.replicate 20 0)) .Regtest).to_string Toy.sha256
          Toy.b58enc Toy.bech32_enc Toy.to_base32)
      = .ok (Address.new (.Pkh (List.replicate 20 0)) .Testnet) ∧
      Address.new (.Pkh (List.replicate 20 0)) .Testnet
        ≠ Address.new (.Pkh (List.replicate 20 0)) .Regtest :=
  ⟨by decide, by decide⟩

theorem address_roundtrip_amended_witness :
    (Address.new (.Wpkh (List.replicate 20 7)) .Regtest).wf Toy.tap_valid ∧
      Address.from_str Toy.sha256 Toy.b58dec Toy.bech32_dec Toy.from_base32 Toy.tap_valid
        ((Address.new (.Wpkh (List.replicate 20 7)) .Regtest).to_string Toy.sha256
          Toy.b58enc Toy.bech32_enc Toy.to_base32)
      = .ok (Address.new (.Wpkh (List.replicate 20 7)) .Regtest) := by
  refine ⟨by decide, ?_⟩
  exact address_roundtrip_amended Toy.sha256 Toy.b58enc Toy.b58dec Toy.bech32_enc
    Toy.bech32_dec Toy.to_base32 Toy.from_base32 Toy.tap_valid _
    (by decide) Toy.sha256_length Toy.sha256_wf
    (fun l hl => Toy.b58dec_b58enc l hl) Toy.b58enc_le_50 Toy.bech32_dec_b58enc
    (fun h v d hh hd => Toy.bech32_dec_bech32_enc h v d hh hd)
    (fun l hl => Toy.from_base32_to_base32 l hl) (fun l hl => Toy.to_base32_lt l hl)
    (fun _ => by decide)

theorem legacy_parse_no_regtest_witness :
    Address.from_str Toy.sha256 Toy.b58dec Toy.bech32_dec Toy.from_base32 Toy.tap_valid
        (Toy.b58enc ([111] ++ List.replicate 20 0 ++ [0, 0, 0, 0]))
      = .ok (Address.new (.Pkh (List.replicate 20 0)) .Testnet) ∧
      (Address.new (.Pkh (List.replicate 20 0)) .Testnet).network ≠ .Regtest := by
  have hok : Address.from_str Toy.sha256 Toy.b58dec Toy.bech32_dec Toy.from_base32
      Toy.tap_valid (Toy.b58enc ([111] ++ List.replicate 20 0 ++ [0, 0, 0, 0]))
      = .ok (Address.new (.Pkh (List.replicate 20 0)) .Testnet) := by decide
  exact ⟨hok,
    legacy_parse_no_regtest Toy.sha256 Toy.b58dec Toy.bech32_dec Toy.from_base32
      Toy.tap_valid _ _ hok (by decide)⟩

end BpStd
